import Mathlib

/-!
Verification of the market-data subscription and session-state tracker
(`KiteTickerWrapper` in `src/kite_websocket.py`).

The tracker's mutable Python object is embedded as a `TrackerState` record;
each handler or public method becomes a state-passing Lean function. Vendor
(KiteTicker) calls are modelled by a `Vendor` oracle saying which calls
succeed, and every issued vendor call is recorded in a trace so that theorems
can talk about which calls were made. Python exceptions are modelled with
`Except` / an `err` field; a `try/except` block that logs and swallows the
exception becomes a function that converts the error outcome to a normal one.
-/

namespace KiteWrap

/-- Streaming-mode constant `KiteTicker.MODE_LTP` (the string constant the vendor library uses), bound here as `modeLTP`. -/
def modeLTP : String := "ltp"

/-- Streaming-mode constant `KiteTicker.MODE_QUOTE` (the default mode), bound here as `modeQUOTE`. -/
def modeQUOTE : String := "quote"

/-- Streaming-mode constant `KiteTicker.MODE_FULL`, bound here as `modeFULL`. -/
def modeFULL : String := "full"

/-- The list `valid_modes` of the three mode constants built in `subscribe`. -/
def validModes : List String := [modeLTP, modeQUOTE, modeFULL]

/-- A decoded tick payload: the fields of the payload the tracker inspects
(`instrument_token`) plus the representative data field `last_price`. -/
structure Tick where
  instrument_token : Nat
  last_price : Int
  deriving DecidableEq

/-- One element of a per-instrument history list:
`\x7b'timestamp': datetime.now(), 'data': tick\x7d`. Timestamps are abstracted
to a `Nat` clock value supplied with each delivery. -/
structure TickEntry where
  timestamp : Nat
  data : Tick
  deriving DecidableEq

/-- One element of `order_updates`: `\x7b'timestamp': ..., 'data': data\x7d`,
with the opaque order payload abstracted to a `Nat`. -/
structure OrderEntry where
  timestamp : Nat
  data : Nat
  deriving DecidableEq

/-- Python exceptions that the wrapper can raise or see:
`invalidMode` is the `ValueError` raised for a bad mode, `vendorError` stands
for an arbitrary exception raised by a vendor-client call. -/
inductive TickerError where
  | invalidMode : TickerError
  | vendorError : TickerError
  deriving DecidableEq

/-- A call issued to the vendor client (`self.kws.…`), recorded in a trace. -/
inductive VendorCall where
  | subscribe (tokens : List Nat) : VendorCall
  | setMode (mode : String) (tokens : List Nat) : VendorCall
  | unsubscribe (tokens : List Nat) : VendorCall
  deriving DecidableEq

/-- Whether a vendor-call trace entry is a `subscribe` call. -/
def isSubscribeCall : VendorCall → Bool
  | VendorCall.subscribe _ => true
  | _ => false

/-- The `subscribe` calls of a vendor-call trace. -/
def filterSubCalls (calls : List VendorCall) : List VendorCall :=
  calls.filter isSubscribeCall

/-- Oracle describing which vendor-client calls succeed; a `false` answer
means the corresponding `self.kws.…` call raises an exception. -/
structure Vendor where
  subscribeOk : List Nat → Bool
  setModeOk : String → List Nat → Bool
  unsubscribeOk : List Nat → Bool

/-- A vendor client whose calls all succeed. -/
def alwaysOkVendor : Vendor :=
  ⟨fun _ => true, fun _ _ => true, fun _ => true⟩

/-- A vendor client whose `subscribe` calls all raise. -/
def subFailVendor : Vendor :=
  ⟨fun _ => false, fun _ _ => true, fun _ => true⟩

/-- The mutable state of a `KiteTickerWrapper` object. Python dicts keyed by
instrument token become either total functions (for `tick_data`, a
`defaultdict(list)`, and `latest_ticks`, queried with `.get`) or an
insertion-ordered association list (for `subscribed_instruments`, whose
iteration order matters for resubscription grouping). The five
`custom_*_callbacks` lists hold observers modelled as pure functions that may
raise (`Except.error`). -/
structure TrackerState where
  tickData : Nat → List TickEntry
  latestTicks : Nat → Option Tick
  subscribedInstruments : List (Nat × String)
  orderUpdates : List OrderEntry
  connectionStatus : String
  connectionCount : Nat
  lastTickTime : Option Nat
  tickCallbacks : List (List Tick → Except TickerError Unit)
  connectCallbacks : List (Nat → Except TickerError Unit)
  disconnectCallbacks : List (Nat × String → Except TickerError Unit)
  errorCallbacks : List (Nat × String → Except TickerError Unit)
  orderCallbacks : List (Nat → Except TickerError Unit)

/-- The state built by `__init__`: empty storage, `DISCONNECTED`,
`connection_count = 0`, no callbacks registered. -/
def initialState : TrackerState where
  tickData := fun _ => []
  latestTicks := fun _ => none
  subscribedInstruments := []
  orderUpdates := []
  connectionStatus := "DISCONNECTED"
  connectionCount := 0
  lastTickTime := none
  tickCallbacks := []
  connectCallbacks := []
  disconnectCallbacks := []
  errorCallbacks := []
  orderCallbacks := []

/-- Python-dict assignment `d[k] = v` on an insertion-ordered association
list: an existing key keeps its position and gets the new value, a new key is
appended at the end. -/
def dictInsert : List (Nat × String) → Nat → String → List (Nat × String)
  | [], k, v => [(k, v)]
  | p :: rest, k, v => if p.1 = k then (k, v) :: rest else p :: dictInsert rest k v

/-- Python-dict lookup `d.get(k)`. -/
def dictLookup : List (Nat × String) → Nat → Option String
  | [], _ => none
  | p :: rest, k => if p.1 = k then some p.2 else dictLookup rest k

/-- Python-dict removal `d.pop(k, None)`. -/
def dictErase : List (Nat × String) → Nat → List (Nat × String)
  | [], _ => []
  | p :: rest, k => if p.1 = k then dictErase rest k else p :: dictErase rest k

/-- The loop `for token in instruments: self.subscribed_instruments[token] = mode`. -/
def recordTokens (l : List (Nat × String)) (tokens : List Nat) (m : String) :
    List (Nat × String) :=
  tokens.foldl (fun acc t => dictInsert acc t m) l

/-- `mode = mode or self.kws.MODE_QUOTE`: a missing mode defaults to `quote`,
and so does the empty string, because `""` is falsy in Python. -/
def resolveMode : Option String → String
  | none => modeQUOTE
  | some m => if m = "" then modeQUOTE else m

/-- Result of a caller-invoked tracker method: the state the object is left
in, the trace of vendor calls issued, and the exception propagated to the
caller, if any. -/
structure CallResult where
  state : TrackerState
  calls : List VendorCall
  err : Option TickerError

/-- `KiteTickerWrapper.subscribe(instruments, mode)` (lines 260-296):
resolve the default mode, validate it against `valid_modes` (raising
`ValueError` before any vendor call), then call `kws.subscribe`, then
`kws.set_mode` when the mode is not the default, and only after both vendor
calls succeed record every token's mode in `subscribed_instruments`. A vendor
exception is logged and re-raised with no tracker-state change. -/
def subscribe (v : Vendor) (s : TrackerState) (instruments : List Nat)
    (mode : Option String) : CallResult :=
  let m := resolveMode mode
  if m ∈ validModes then
    if v.subscribeOk instruments then
      if m = modeQUOTE then
        ⟨{ s with subscribedInstruments := recordTokens s.subscribedInstruments instruments m },
          [VendorCall.subscribe instruments], none⟩
      else
        if v.setModeOk m instruments then
          ⟨{ s with subscribedInstruments := recordTokens s.subscribedInstruments instruments m },
            [VendorCall.subscribe instruments, VendorCall.setMode m instruments], none⟩
        else
          ⟨s, [VendorCall.subscribe instruments, VendorCall.setMode m instruments],
            some TickerError.vendorError⟩
    else
      ⟨s, [VendorCall.subscribe instruments], some TickerError.vendorError⟩
  else
    ⟨s, [], some TickerError.invalidMode⟩

/-- `KiteTickerWrapper.unsubscribe(instruments)` (lines 298-320): call
`kws.unsubscribe`, then pop each token from `subscribed_instruments` and from
`latest_ticks`. Tick history is not touched. A vendor exception is logged and
re-raised with no state change. -/
def unsubscribe (v : Vendor) (s : TrackerState) (instruments : List Nat) : CallResult :=
  if v.unsubscribeOk instruments then
    ⟨{ s with
        subscribedInstruments := instruments.foldl dictErase s.subscribedInstruments,
        latestTicks := fun t => if t ∈ instruments then none else s.latestTicks t },
      [VendorCall.unsubscribe instruments], none⟩
  else
    ⟨s, [VendorCall.unsubscribe instruments], some TickerError.vendorError⟩

/-- The tracking-update loop of `set_mode`: `for token in instruments: if
token in self.subscribed_instruments: self.subscribed_instruments[token] = mode`. -/
def setModeFold (l : List (Nat × String)) (mode : String)
    (instruments : List Nat) : List (Nat × String) :=
  instruments.foldl
    (fun acc t => if (dictLookup acc t).isSome then dictInsert acc t mode else acc) l

/-- `KiteTickerWrapper.set_mode(mode, instruments)` (lines 322-345): call
`kws.set_mode`, then update the recorded mode of each token that is already
in `subscribed_instruments`; absent tokens are skipped. A vendor exception is
logged and re-raised with no state change. -/
def set_mode (v : Vendor) (s : TrackerState) (mode : String)
    (instruments : List Nat) : CallResult :=
  if v.setModeOk mode instruments then
    ⟨{ s with subscribedInstruments := setModeFold s.subscribedInstruments mode instruments },
      [VendorCall.setMode mode instruments], none⟩
  else
    ⟨s, [VendorCall.setMode mode instruments], some TickerError.vendorError⟩

/-- The history append of `_on_ticks` for one tick: `append` followed by the
cap `if len(...) > 1000: ... = ...[-1000:]` keeping the most recent 1000. -/
def appendTick (h : List TickEntry) (e : TickEntry) : List TickEntry :=
  let h2 := h ++ [e]
  if h2.length > 1000 then h2.drop (h2.length - 1000) else h2

/-- The body of the `for tick in ticks` loop of `_on_ticks` (lines 110-122):
append the tick to its instrument's bounded history and overwrite the
latest-tick snapshot for that instrument. -/
def recordTick (s : TrackerState) (now : Nat) (tick : Tick) : TrackerState :=
  let tok := tick.instrument_token
  { s with
    tickData := fun t => if t = tok then appendTick (s.tickData tok) ⟨now, tick⟩ else s.tickData t,
    latestTicks := fun t => if t = tok then some tick else s.latestTicks t }

/-- The state-updating part of `_on_ticks`: set `last_tick_time`, then run
the per-tick loop over the whole batch. -/
def recordBatch (s : TrackerState) (now : Nat) (ticks : List Tick) : TrackerState :=
  ticks.foldl (fun a tk => recordTick a now tk) { s with lastTickTime := some now }

/-- One `try: callback(x) except Exception as e: logger.error(...)`
iteration: the observer's exception is caught and logged, so the iteration
itself never raises; its outcome is kept so theorems can inspect it. -/
def tryCall {α : Type} (cb : α → Except TickerError Unit) (x : α) :
    Except TickerError (Except TickerError Unit) :=
  match cb x with
  | Except.ok u => Except.ok (Except.ok u)
  | Except.error e => Except.ok (Except.error e)

/-- The dispatch loop `for callback in callbacks: try: callback(x) except: log`.
If an iteration raised, the loop would abort with that error; because every
iteration is wrapped in `tryCall`, it never does. Returns the outcome of each
invocation in order. -/
def runCallbacks {α : Type} : List (α → Except TickerError Unit) → α →
    Except TickerError (List (Except TickerError Unit))
  | [], _ => Except.ok []
  | cb :: rest, x => do
    let r ← tryCall cb x
    let rs ← runCallbacks rest x
    pure (r :: rs)

/-- `KiteTickerWrapper._on_ticks(ws, ticks)` (lines 106-131): record the whole
batch (history, latest tick, last-tick time), then fan the batch out once to
every registered tick observer, each wrapped in `try/except`. -/
def on_ticks (s : TrackerState) (now : Nat) (ticks : List Tick) :
    Except TickerError (TrackerState × List (Except TickerError Unit)) := do
  let rs ← runCallbacks (recordBatch s now ticks).tickCallbacks ticks
  pure (recordBatch s now ticks, rs)

/-- `KiteTickerWrapper._resubscribe_all` (lines 199-214): nothing to do when
no instruments are tracked; otherwise group `subscribed_instruments` by mode
(a `defaultdict(list)` built in insertion order) and re-issue `subscribe` for
each mode group, catching and logging any exception per group. -/
def groupInsert : List (String × List Nat) → String → Nat → List (String × List Nat)
  | [], m, t => [(m, [t])]
  | g :: rest, m, t => if g.1 = m then (g.1, g.2 ++ [t]) :: rest else g :: groupInsert rest m t

/-- The `mode_groups` dictionary of `_resubscribe_all`: tokens grouped by
mode, groups in order of first appearance of each mode, tokens in map order. -/
def groupByMode (l : List (Nat × String)) : List (String × List Nat) :=
  l.foldl (fun acc p => groupInsert acc p.2 p.1) []

/-- `_resubscribe_all`: the per-group `try: self.subscribe(tokens, mode,
resubscribe=True) except Exception as e: log` loop. A group's error is
swallowed; the vendor calls it issued stay in the trace. -/
def resubscribe_all (v : Vendor) (s : TrackerState) : TrackerState × List VendorCall :=
  if s.subscribedInstruments = [] then (s, [])
  else
    (groupByMode s.subscribedInstruments).foldl
      (fun acc g =>
        let r := subscribe v acc.1 g.2 (some g.1)
        (r.state, acc.2 ++ r.calls))
      (s, [])

/-- `KiteTickerWrapper._on_connect(ws, response)` (lines 133-149): set status
`CONNECTED`, increment `connection_count`, resubscribe everything when this
is a reconnect (`subscribed_instruments` non-empty and count now above 1),
then fan out to connect observers. `connectStep` is the state-and-trace part
(status, counter, conditional resubscription); `connectedState` is the
status/counter update `self.connection_status = "CONNECTED";
self.connection_count += 1` alone. -/
def connectedState (s : TrackerState) : TrackerState :=
  { s with connectionStatus := "CONNECTED", connectionCount := s.connectionCount + 1 }

/-- The condition `if self.subscribed_instruments and self.connection_count > 1`,
read after the increment. -/
def connectStep (v : Vendor) (s : TrackerState) : TrackerState × List VendorCall :=
  if s.subscribedInstruments ≠ [] ∧ s.connectionCount + 1 > 1 then
    resubscribe_all v (connectedState s)
  else (connectedState s, [])

/-- The fan-out to connect observers that closes `_on_connect`. -/
def on_connect (v : Vendor) (s : TrackerState) (response : Nat) :
    Except TickerError (TrackerState × List VendorCall × List (Except TickerError Unit)) := do
  let rs ← runCallbacks (connectStep v s).1.connectCallbacks response
  pure ((connectStep v s).1, (connectStep v s).2, rs)

/-- `KiteTickerWrapper._on_close(ws, code, reason)` (lines 151-161): set
status `DISCONNECTED` and fan out to disconnect observers. -/
def on_close (s : TrackerState) (code : Nat) (reason : String) :
    Except TickerError (TrackerState × List (Except TickerError Unit)) := do
  let rs ← runCallbacks s.disconnectCallbacks (code, reason)
  pure ({ s with connectionStatus := "DISCONNECTED" }, rs)

/-- `KiteTickerWrapper._on_error(ws, code, reason)` (lines 163-172): log and
fan out to error observers; no state change. -/
def on_error (s : TrackerState) (code : Nat) (reason : String) :
    Except TickerError (TrackerState × List (Except TickerError Unit)) := do
  let rs ← runCallbacks s.errorCallbacks (code, reason)
  pure (s, rs)

/-- `KiteTickerWrapper._on_order_update(ws, data)` (lines 174-188): append the
update to `order_updates` and fan out to order observers. -/
def on_order_update (s : TrackerState) (now : Nat) (data : Nat) :
    Except TickerError (TrackerState × List (Except TickerError Unit)) := do
  let rs ← runCallbacks s.orderCallbacks data
  pure ({ s with orderUpdates := s.orderUpdates ++ [⟨now, data⟩] }, rs)

/-- `KiteTickerWrapper.get_latest_tick(instrument_token)` (lines 367-369). -/
def get_latest_tick (s : TrackerState) (t : Nat) : Option Tick :=
  s.latestTicks t

/-- `KiteTickerWrapper.get_tick_history(instrument_token, count)` (lines
371-382): `history = tick_data.get(token, [])`, then `if count: return
history[-count:]` — note `count = 0` is falsy in Python, so it falls through
to returning the whole history. -/
def get_tick_history (s : TrackerState) (t : Nat) (count : Option Nat) : List TickEntry :=
  let history := s.tickData t
  match count with
  | some c => if c ≠ 0 then history.drop (history.length - c) else history
  | none => history

/-- An externally observable operation on the tracker: a caller-invoked
method or a vendor event delivered to a handler. -/
inductive Op where
  | sub (tokens : List Nat) (mode : Option String) : Op
  | unsub (tokens : List Nat) : Op
  | chMode (mode : String) (tokens : List Nat) : Op
  | ticksEvent (now : Nat) (batch : List Tick) : Op
  | connectEvent (response : Nat) : Op
  | closeEvent (code : Nat) (reason : String) : Op
  | errorEvent (code : Nat) (reason : String) : Op
  | orderEvent (now : Nat) (data : Nat) : Op
  deriving DecidableEq

/-- The state the tracker object is left in after one operation (whether or
not the operation also propagated an exception to its caller). -/
def step (v : Vendor) (s : TrackerState) : Op → TrackerState
  | Op.sub tokens mode => (subscribe v s tokens mode).state
  | Op.unsub tokens => (unsubscribe v s tokens).state
  | Op.chMode m tokens => (set_mode v s m tokens).state
  | Op.ticksEvent now batch =>
      match on_ticks s now batch with
      | Except.ok r => r.1
      | Except.error _ => s
  | Op.connectEvent resp =>
      match on_connect v s resp with
      | Except.ok r => r.1
      | Except.error _ => s
  | Op.closeEvent code reason =>
      match on_close s code reason with
      | Except.ok r => r.1
      | Except.error _ => s
  | Op.errorEvent code reason =>
      match on_error s code reason with
      | Except.ok r => r.1
      | Except.error _ => s
  | Op.orderEvent now data =>
      match on_order_update s now data with
      | Except.ok r => r.1
      | Except.error _ => s

/-- Run a sequence of operations from a starting state. -/
def runSteps (v : Vendor) (s : TrackerState) (ops : List Op) : TrackerState :=
  ops.foldl (step v) s

/-- Whether an operation is a `subscribe` or `unsubscribe` call. -/
def isSubUnsub : Op → Bool
  | Op.sub _ _ => true
  | Op.unsub _ => true
  | _ => false

/-- Whether an operation's mode argument (after defaulting) is valid;
vacuously true for operations that carry no subscribe mode. -/
def opModeValid : Op → Bool
  | Op.sub _ mode => decide (resolveMode mode ∈ validModes)
  | _ => true

/-- The mode the last relevant `subscribe`/`unsubscribe` call in `ops` leaves
token `t` with: `some m` when the last call mentioning `t` was a subscribe
with (resolved) mode `m`, `none` when it was an unsubscribe or `t` was never
mentioned. -/
def lastSubUpdate (t : Nat) (acc : Option String) : Op → Option String
  | Op.sub tokens mode => if t ∈ tokens then some (resolveMode mode) else acc
  | Op.unsub tokens => if t ∈ tokens then none else acc
  | _ => acc

/-- Fold `lastSubUpdate` over an operation sequence starting from "absent". -/
def lastSubSpec (ops : List Op) (t : Nat) : Option String :=
  ops.foldl (lastSubUpdate t) none

/-- The history entries a batch contributes to token `t`, in delivery order. -/
def entriesFor (t : Nat) (now : Nat) (batch : List Tick) : List TickEntry :=
  (batch.filter (fun tk => tk.instrument_token = t)).map (fun tk => ⟨now, tk⟩)

/-- All history entries delivered for token `t` over an operation sequence. -/
def deliveredFor (t : Nat) (ops : List Op) : List TickEntry :=
  ops.foldl
    (fun acc op =>
      match op with
      | Op.ticksEvent now batch => acc ++ entriesFor t now batch
      | _ => acc)
    []

/-! ### Callback dispatch -/

/-- A `try/except`-wrapped observer invocation never raises and reports the
observer's own outcome. -/
theorem tryCall_eq {α : Type} (cb : α → Except TickerError Unit) (x : α) :
    tryCall cb x = Except.ok (cb x) := by
  unfold tryCall
  cases cb x <;> rfl

/-- The dispatch loop never raises and invokes every registered observer on
the event, in registration order, regardless of which observers fail. -/
theorem runCallbacks_eq {α : Type} (cbs : List (α → Except TickerError Unit)) (x : α) :
    runCallbacks cbs x = Except.ok (cbs.map (fun cb => cb x)) := by
  induction cbs with
  | nil => rfl
  | cons cb rest ih =>
      simp only [runCallbacks, tryCall_eq, ih, List.map_cons]
      rfl

/-! ### Association-list (Python dict) lemmas -/

/-- The keys of the association list, in insertion order. -/
def dictKeys (l : List (Nat × String)) : List Nat :=
  l.map Prod.fst

theorem dictKeys_nil : dictKeys [] = [] := rfl

theorem dictKeys_cons (p : Nat × String) (rest : List (Nat × String)) :
    dictKeys (p :: rest) = p.1 :: dictKeys rest := rfl

theorem dictLookup_insert_self (l : List (Nat × String)) (k : Nat) (v : String) :
    dictLookup (dictInsert l k v) k = some v := by
  induction l with
  | nil => simp [dictInsert, dictLookup]
  | cons p rest ih =>
      by_cases h : p.1 = k
      · simp [dictInsert, dictLookup, h]
      · simp [dictInsert, dictLookup, h, ih]

theorem dictLookup_insert_ne (l : List (Nat × String)) (k : Nat) (v : String)
    (t : Nat) (h : t ≠ k) :
    dictLookup (dictInsert l k v) t = dictLookup l t := by
  have hkt : ¬ k = t := fun hc => h hc.symm
  induction l with
  | nil => simp [dictInsert, dictLookup, hkt]
  | cons p rest ih =>
      by_cases hp : p.1 = k
      · simp [dictInsert, dictLookup, hp, hkt]
      · simp [dictInsert, dictLookup, hp, ih]

theorem mem_dictKeys_insert (l : List (Nat × String)) (k : Nat) (v : String) (x : Nat) :
    x ∈ dictKeys (dictInsert l k v) ↔ x ∈ dictKeys l ∨ x = k := by
  induction l with
  | nil =>
      show x ∈ dictKeys [(k, v)] ↔ x ∈ dictKeys [] ∨ x = k
      simp [dictKeys_cons, dictKeys_nil]
  | cons p rest ih =>
      by_cases hp : p.1 = k
      · show x ∈ dictKeys (if p.1 = k then (k, v) :: rest else _) ↔ _
        rw [if_pos hp]
        rw [dictKeys_cons, dictKeys_cons]
        simp only [List.mem_cons, hp]
        tauto
      · show x ∈ dictKeys (if p.1 = k then (k, v) :: rest else p :: dictInsert rest k v) ↔ _
        rw [if_neg hp]
        rw [dictKeys_cons, dictKeys_cons]
        simp only [List.mem_cons, ih]
        tauto

theorem nodup_dictKeys_insert (l : List (Nat × String)) (k : Nat) (v : String)
    (h : (dictKeys l).Nodup) :
    (dictKeys (dictInsert l k v)).Nodup := by
  induction l with
  | nil =>
      show (dictKeys [(k, v)]).Nodup
      simp [dictKeys_cons, dictKeys_nil]
  | cons p rest ih =>
      rw [dictKeys_cons, List.nodup_cons] at h
      by_cases hp : p.1 = k
      · show (dictKeys (if p.1 = k then (k, v) :: rest else _)).Nodup
        rw [if_pos hp, dictKeys_cons, List.nodup_cons]
        exact ⟨hp ▸ h.1, h.2⟩
      · show (dictKeys (if p.1 = k then (k, v) :: rest else p :: dictInsert rest k v)).Nodup
        rw [if_neg hp, dictKeys_cons, List.nodup_cons]
        refine ⟨?_, ih h.2⟩
        rw [mem_dictKeys_insert]
        rintro (hc | hc)
        · exact h.1 hc
        · exact hp hc

theorem dictLookup_erase_self (l : List (Nat × String)) (k : Nat) :
    dictLookup (dictErase l k) k = none := by
  induction l with
  | nil => rfl
  | cons p rest ih =>
      by_cases hp : p.1 = k
      · simp [dictErase, hp, ih]
      · simp [dictErase, dictLookup, hp, ih]

theorem dictLookup_erase_ne (l : List (Nat × String)) (k : Nat) (t : Nat) (h : t ≠ k) :
    dictLookup (dictErase l k) t = dictLookup l t := by
  induction l with
  | nil => rfl
  | cons p rest ih =>
      by_cases hp : p.1 = k
      · have hkt : ¬ k = t := fun hc => h hc.symm
        simp [dictErase, dictLookup, hp, hkt, ih]
      · simp [dictErase, dictLookup, hp, ih]

theorem mem_dictKeys_erase (l : List (Nat × String)) (k : Nat) (x : Nat)
    (h : x ∈ dictKeys (dictErase l k)) : x ∈ dictKeys l := by
  induction l with
  | nil => exact h
  | cons p rest ih =>
      rw [dictKeys_cons, List.mem_cons]
      by_cases hp : p.1 = k
      · rw [show dictErase (p :: rest) k = dictErase rest k from if_pos hp] at h
        exact Or.inr (ih h)
      · rw [show dictErase (p :: rest) k = p :: dictErase rest k from if_neg hp,
            dictKeys_cons, List.mem_cons] at h
        rcases h with h | h
        · exact Or.inl h
        · exact Or.inr (ih h)

theorem nodup_dictKeys_erase (l : List (Nat × String)) (k : Nat)
    (h : (dictKeys l).Nodup) :
    (dictKeys (dictErase l k)).Nodup := by
  induction l with
  | nil => exact h
  | cons p rest ih =>
      rw [dictKeys_cons, List.nodup_cons] at h
      by_cases hp : p.1 = k
      · rw [show dictErase (p :: rest) k = dictErase rest k from if_pos hp]
        exact ih h.2
      · rw [show dictErase (p :: rest) k = p :: dictErase rest k from if_neg hp,
            dictKeys_cons, List.nodup_cons]
        exact ⟨fun hc => h.1 (mem_dictKeys_erase rest k p.1 hc), ih h.2⟩

/-! ### `recordTokens` and erase-fold lemmas -/

theorem dictLookup_recordTokens (tokens : List Nat) (l : List (Nat × String))
    (m : String) (t : Nat) :
    dictLookup (recordTokens l tokens m) t =
      if t ∈ tokens then some m else dictLookup l t := by
  induction tokens generalizing l with
  | nil => simp [recordTokens]
  | cons tok rest ih =>
      show dictLookup (recordTokens (dictInsert l tok m) rest m) t = _
      rw [ih]
      by_cases hr : t ∈ rest
      · simp [hr, List.mem_cons]
      · by_cases ht : t = tok
        · simp [hr, ht, List.mem_cons, dictLookup_insert_self]
        · simp [hr, ht, List.mem_cons, dictLookup_insert_ne l tok m t ht]

theorem nodup_recordTokens (tokens : List Nat) (l : List (Nat × String))
    (m : String) (h : (dictKeys l).Nodup) :
    (dictKeys (recordTokens l tokens m)).Nodup := by
  induction tokens generalizing l with
  | nil => exact h
  | cons tok rest ih =>
      exact ih (dictInsert l tok m) (nodup_dictKeys_insert l tok m h)

theorem dictLookup_eraseFold (tokens : List Nat) (l : List (Nat × String)) (t : Nat) :
    dictLookup (tokens.foldl dictErase l) t =
      if t ∈ tokens then none else dictLookup l t := by
  induction tokens generalizing l with
  | nil => simp
  | cons tok rest ih =>
      show dictLookup (rest.foldl dictErase (dictErase l tok)) t = _
      rw [ih]
      by_cases hr : t ∈ rest
      · simp [hr, List.mem_cons]
      · by_cases ht : t = tok
        · simp [hr, ht, List.mem_cons, dictLookup_erase_self]
        · simp [hr, ht, List.mem_cons, dictLookup_erase_ne l tok t ht]

theorem nodup_eraseFold (tokens : List Nat) (l : List (Nat × String))
    (h : (dictKeys l).Nodup) :
    (dictKeys (tokens.foldl dictErase l)).Nodup := by
  induction tokens generalizing l with
  | nil => exact h
  | cons tok rest ih =>
      exact ih (dictErase l tok) (nodup_dictKeys_erase l tok h)

/-! ### `subscribe` / `unsubscribe` / `set_mode` characterizations -/

/-- A mode string that passes validation is unchanged by Python's
`mode or MODE_QUOTE` defaulting (none of the valid modes is falsy). -/
theorem resolveMode_of_valid (m : String) (h : m ∈ validModes) :
    resolveMode (some m) = m := by
  rw [validModes] at h
  simp only [List.mem_cons, List.not_mem_nil, or_false] at h
  have hne : ¬ m = "" := by
    rcases h with h | h | h <;> rw [h] <;> decide
  show (if m = "" then modeQUOTE else m) = m
  rw [if_neg hne]

/-- A successful `subscribe` records every requested token with the resolved
mode and raises nothing. -/
theorem subscribe_ok (v : Vendor) (s : TrackerState) (instruments : List Nat)
    (mode : Option String) (hm : resolveMode mode ∈ validModes)
    (h1 : v.subscribeOk instruments = true)
    (h2 : v.setModeOk (resolveMode mode) instruments = true) :
    (subscribe v s instruments mode).state =
      { s with subscribedInstruments :=
          recordTokens s.subscribedInstruments instruments (resolveMode mode) }
    ∧ (subscribe v s instruments mode).err = none := by
  unfold subscribe
  rw [if_pos hm, if_pos h1]
  by_cases hq : resolveMode mode = modeQUOTE
  · rw [if_pos hq]
    exact ⟨rfl, rfl⟩
  · rw [if_neg hq, if_pos h2]
    exact ⟨rfl, rfl⟩

/-- `subscribe` only ever touches the `subscribed_instruments` field. -/
theorem subscribe_state_shape (v : Vendor) (s : TrackerState) (instruments : List Nat)
    (mode : Option String) :
    ∃ l, (subscribe v s instruments mode).state = { s with subscribedInstruments := l } := by
  unfold subscribe
  by_cases hm : resolveMode mode ∈ validModes
  · rw [if_pos hm]
    by_cases h1 : v.subscribeOk instruments
    · rw [if_pos h1]
      by_cases hq : resolveMode mode = modeQUOTE
      · rw [if_pos hq]
        exact ⟨_, rfl⟩
      · rw [if_neg hq]
        by_cases h2 : v.setModeOk (resolveMode mode) instruments
        · rw [if_pos h2]
          exact ⟨_, rfl⟩
        · rw [if_neg h2]
          exact ⟨s.subscribedInstruments, rfl⟩
    · rw [if_neg h1]
      exact ⟨s.subscribedInstruments, rfl⟩
  · rw [if_neg hm]
    exact ⟨s.subscribedInstruments, rfl⟩

/-- With a valid mode, a failing vendor `subscribe` or `set_mode` call makes
the wrapper re-raise and leave the tracker state exactly as it was. -/
theorem subscribe_vendor_fail (v : Vendor) (s : TrackerState) (instruments : List Nat)
    (mode : Option String) (hm : resolveMode mode ∈ validModes)
    (hfail : v.subscribeOk instruments = false ∨
      (resolveMode mode ≠ modeQUOTE ∧ v.setModeOk (resolveMode mode) instruments = false)) :
    (subscribe v s instruments mode).state = s
    ∧ (subscribe v s instruments mode).err = some TickerError.vendorError := by
  unfold subscribe
  rw [if_pos hm]
  by_cases h1 : v.subscribeOk instruments
  · rw [if_pos h1]
    rcases hfail with hfail | hfail
    · rw [h1] at hfail
      exact absurd hfail (by simp)
    · rw [if_neg hfail.1, if_neg (by rw [hfail.2]; simp)]
      exact ⟨rfl, rfl⟩
  · rw [if_neg h1]
    exact ⟨rfl, rfl⟩

/-- An invalid (non-empty, non-mode) mode string fails validation before any
vendor call: `ValueError`, empty trace, untouched state. -/
theorem subscribe_invalid_mode (v : Vendor) (s : TrackerState) (instruments : List Nat)
    (mode : Option String) (hm : resolveMode mode ∉ validModes) :
    (subscribe v s instruments mode).state = s
    ∧ (subscribe v s instruments mode).calls = []
    ∧ (subscribe v s instruments mode).err = some TickerError.invalidMode := by
  unfold subscribe
  rw [if_neg hm]
  exact ⟨rfl, rfl, rfl⟩

/-- A `subscribe` call with a valid resolved mode issues exactly one vendor
`subscribe` call (whatever else happens); with an invalid mode it issues
none. -/
theorem subscribe_filterSub (v : Vendor) (s : TrackerState) (instruments : List Nat)
    (mode : Option String) :
    filterSubCalls (subscribe v s instruments mode).calls =
      if resolveMode mode ∈ validModes then [VendorCall.subscribe instruments] else [] := by
  unfold subscribe
  by_cases hm : resolveMode mode ∈ validModes
  · rw [if_pos hm, if_pos hm]
    by_cases h1 : v.subscribeOk instruments
    · rw [if_pos h1]
      by_cases hq : resolveMode mode = modeQUOTE
      · rw [if_pos hq]
        rfl
      · rw [if_neg hq]
        by_cases h2 : v.setModeOk (resolveMode mode) instruments
        · rw [if_pos h2]
          rfl
        · rw [if_neg h2]
          rfl
    · rw [if_neg h1]
      rfl
  · rw [if_neg hm, if_neg hm]
    rfl

/-- A successful `unsubscribe` removes the tokens from the subscription map,
purges their latest-tick entries, touches nothing else, and raises nothing. -/
theorem unsubscribe_ok (v : Vendor) (s : TrackerState) (instruments : List Nat)
    (hv : v.unsubscribeOk instruments = true) :
    (unsubscribe v s instruments).state =
      { s with
          subscribedInstruments := instruments.foldl dictErase s.subscribedInstruments,
          latestTicks := fun t => if t ∈ instruments then none else s.latestTicks t }
    ∧ (unsubscribe v s instruments).err = none := by
  unfold unsubscribe
  rw [if_pos hv]
  exact ⟨rfl, rfl⟩

/-- `unsubscribe` only ever touches the subscription map and the latest-tick
snapshot. -/
theorem unsubscribe_state_shape (v : Vendor) (s : TrackerState) (instruments : List Nat) :
    ∃ l f, (unsubscribe v s instruments).state =
      { s with subscribedInstruments := l, latestTicks := f } := by
  unfold unsubscribe
  by_cases hv : v.unsubscribeOk instruments
  · rw [if_pos hv]
    exact ⟨_, _, rfl⟩
  · rw [if_neg hv]
    exact ⟨s.subscribedInstruments, s.latestTicks, rfl⟩

/-- A successful `set_mode` rewrites the stored mode of exactly the requested
tokens that are present in the subscription map and raises nothing. -/
theorem set_mode_ok (v : Vendor) (s : TrackerState) (mode : String)
    (instruments : List Nat) (hv : v.setModeOk mode instruments = true) :
    (set_mode v s mode instruments).state =
      { s with subscribedInstruments := setModeFold s.subscribedInstruments mode instruments }
    ∧ (set_mode v s mode instruments).err = none := by
  unfold set_mode
  rw [if_pos hv]
  exact ⟨rfl, rfl⟩

/-- `set_mode` only ever touches the subscription map. -/
theorem set_mode_state_shape (v : Vendor) (s : TrackerState) (mode : String)
    (instruments : List Nat) :
    ∃ l, (set_mode v s mode instruments).state = { s with subscribedInstruments := l } := by
  unfold set_mode
  by_cases hv : v.setModeOk mode instruments
  · rw [if_pos hv]
    exact ⟨_, rfl⟩
  · rw [if_neg hv]
    exact ⟨s.subscribedInstruments, rfl⟩

/-! ### Shapes and equations of the event handlers -/

/-- The per-tick loop only touches `tick_data` and `latest_ticks`. -/
theorem recordFold_shape (now : Nat) (ticks : List Tick) (s0 : TrackerState) :
    ∃ f g, ticks.foldl (fun a tk => recordTick a now tk) s0 =
      { s0 with tickData := f, latestTicks := g } := by
  induction ticks generalizing s0 with
  | nil => exact ⟨s0.tickData, s0.latestTicks, rfl⟩
  | cons tk rest ih =>
      obtain ⟨f, g, hf⟩ := ih (recordTick s0 now tk)
      exact ⟨f, g, hf⟩

/-- `_on_ticks` state recording only touches `tick_data`, `latest_ticks` and
`last_tick_time`. -/
theorem recordBatch_shape (s : TrackerState) (now : Nat) (ticks : List Tick) :
    ∃ f g, recordBatch s now ticks =
      { s with tickData := f, latestTicks := g, lastTickTime := some now } := by
  obtain ⟨f, g, hf⟩ := recordFold_shape now ticks { s with lastTickTime := some now }
  exact ⟨f, g, hf⟩

theorem recordBatch_tickCallbacks (s : TrackerState) (now : Nat) (ticks : List Tick) :
    (recordBatch s now ticks).tickCallbacks = s.tickCallbacks := by
  obtain ⟨f, g, hf⟩ := recordBatch_shape s now ticks
  rw [hf]

/-- `_on_ticks` records the whole batch, then invokes every registered tick
observer exactly once with the whole batch, and never raises. -/
theorem on_ticks_eq (s : TrackerState) (now : Nat) (ticks : List Tick) :
    on_ticks s now ticks =
      Except.ok (recordBatch s now ticks, s.tickCallbacks.map (fun cb => cb ticks)) := by
  unfold on_ticks
  rw [runCallbacks_eq, recordBatch_tickCallbacks]
  rfl

/-- `_on_close` sets `DISCONNECTED`, invokes every disconnect observer once,
and never raises. -/
theorem on_close_eq (s : TrackerState) (code : Nat) (reason : String) :
    on_close s code reason =
      Except.ok ({ s with connectionStatus := "DISCONNECTED" },
        s.disconnectCallbacks.map (fun cb => cb (code, reason))) := by
  unfold on_close
  rw [runCallbacks_eq]
  rfl

/-- `_on_error` invokes every error observer once, changes no state, and
never raises. -/
theorem on_error_eq (s : TrackerState) (code : Nat) (reason : String) :
    on_error s code reason =
      Except.ok (s, s.errorCallbacks.map (fun cb => cb (code, reason))) := by
  unfold on_error
  rw [runCallbacks_eq]
  rfl

/-- `_on_order_update` appends the update to the log, invokes every order
observer once, and never raises. -/
theorem on_order_update_eq (s : TrackerState) (now : Nat) (data : Nat) :
    on_order_update s now data =
      Except.ok ({ s with orderUpdates := s.orderUpdates ++ [⟨now, data⟩] },
        s.orderCallbacks.map (fun cb => cb data)) := by
  unfold on_order_update
  rw [runCallbacks_eq]
  rfl

/-- The resubscription loop only ever touches the subscription map (every
per-group `subscribe` does, and the fold composes them). -/
theorem resubFold_shape (v : Vendor) (groups : List (String × List Nat))
    (s0 : TrackerState) (acc : List VendorCall) :
    ∃ l, (groups.foldl
        (fun a g =>
          let r := subscribe v a.1 g.2 (some g.1)
          (r.state, a.2 ++ r.calls)) (s0, acc)).1 =
      { s0 with subscribedInstruments := l } := by
  induction groups generalizing s0 acc with
  | nil => exact ⟨s0.subscribedInstruments, rfl⟩
  | cons g rest ih =>
      obtain ⟨l0, hl0⟩ := subscribe_state_shape v s0 g.2 (some g.1)
      obtain ⟨l, hl⟩ := ih (subscribe v s0 g.2 (some g.1)).state (acc ++ (subscribe v s0 g.2 (some g.1)).calls)
      refine ⟨l, ?_⟩
      show (rest.foldl _ ((subscribe v s0 g.2 (some g.1)).state, _)).1 = _
      rw [hl, hl0]

/-- `_resubscribe_all` only ever touches the subscription map. -/
theorem resubscribe_all_shape (v : Vendor) (s : TrackerState) :
    ∃ l, (resubscribe_all v s).1 = { s with subscribedInstruments := l } := by
  unfold resubscribe_all
  by_cases h : s.subscribedInstruments = []
  · rw [if_pos h]
    exact ⟨s.subscribedInstruments, rfl⟩
  · rw [if_neg h]
    exact resubFold_shape v (groupByMode s.subscribedInstruments) s []

/-- `connectStep` only touches status, counter and (via resubscription) the
subscription map. -/
theorem connectStep_shape (v : Vendor) (s : TrackerState) :
    ∃ l, (connectStep v s).1 = { connectedState s with subscribedInstruments := l } := by
  unfold connectStep
  by_cases h : s.subscribedInstruments ≠ [] ∧ s.connectionCount + 1 > 1
  · rw [if_pos h]
    exact resubscribe_all_shape v _
  · rw [if_neg h]
    exact ⟨s.subscribedInstruments, rfl⟩

/-- `_on_connect` performs `connectStep`, invokes every connect observer once
with the vendor response, and never raises. -/
theorem on_connect_eq (v : Vendor) (s : TrackerState) (resp : Nat) :
    on_connect v s resp =
      Except.ok ((connectStep v s).1, (connectStep v s).2,
        s.connectCallbacks.map (fun cb => cb resp)) := by
  obtain ⟨l, hl⟩ := connectStep_shape v s
  unfold on_connect
  rw [runCallbacks_eq, hl]
  rfl

/-- On a first connect (`connection_count` still 0), no resubscription is
triggered: `connectStep` only updates status and counter, with no vendor
calls. -/
theorem connectStep_first (v : Vendor) (s : TrackerState) (h : s.connectionCount = 0) :
    connectStep v s = (connectedState s, []) := by
  unfold connectStep
  rw [if_neg]
  rintro ⟨-, hgt⟩
  rw [h] at hgt
  exact absurd hgt (by decide)

/-! ### Mode-grouping (`mode_groups` in `_resubscribe_all`) lemmas -/

/-- First-match lookup in the group list. -/
def groupLookup : List (String × List Nat) → String → Option (List Nat)
  | [], _ => none
  | g :: rest, m => if g.1 = m then some g.2 else groupLookup rest m

/-- The modes of the group list, in order of first appearance. -/
def groupModes (l : List (String × List Nat)) : List String :=
  l.map Prod.fst

theorem groupModes_nil : groupModes [] = [] := rfl

theorem groupModes_cons (g : String × List Nat) (rest : List (String × List Nat)) :
    groupModes (g :: rest) = g.1 :: groupModes rest := rfl

theorem groupLookup_insert_self (acc : List (String × List Nat)) (m : String) (t : Nat) :
    groupLookup (groupInsert acc m t) m = some ((groupLookup acc m).getD [] ++ [t]) := by
  induction acc with
  | nil => simp [groupInsert, groupLookup]
  | cons g rest ih =>
      by_cases h : g.1 = m
      · simp [groupInsert, groupLookup, h]
      · simp [groupInsert, groupLookup, h, ih]

theorem groupLookup_insert_ne (acc : List (String × List Nat)) (m : String) (t : Nat)
    (m' : String) (h : m' ≠ m) :
    groupLookup (groupInsert acc m t) m' = groupLookup acc m' := by
  have hmm : ¬ m = m' := fun hc => h hc.symm
  induction acc with
  | nil => simp [groupInsert, groupLookup, hmm]
  | cons g rest ih =>
      by_cases hg : g.1 = m
      · simp [groupInsert, groupLookup, hg, hmm]
      · simp [groupInsert, groupLookup, hg, ih]

theorem mem_groupModes_insert (acc : List (String × List Nat)) (m : String) (t : Nat)
    (x : String) :
    x ∈ groupModes (groupInsert acc m t) ↔ x ∈ groupModes acc ∨ x = m := by
  induction acc with
  | nil =>
      show x ∈ groupModes [(m, [t])] ↔ _
      simp [groupModes_cons, groupModes_nil]
  | cons g rest ih =>
      by_cases hg : g.1 = m
      · show x ∈ groupModes (if g.1 = m then (g.1, g.2 ++ [t]) :: rest else _) ↔ _
        rw [if_pos hg, groupModes_cons, groupModes_cons]
        simp only [List.mem_cons, hg]
        tauto
      · show x ∈ groupModes (if g.1 = m then (g.1, g.2 ++ [t]) :: rest else g :: groupInsert rest m t) ↔ _
        rw [if_neg hg, groupModes_cons, groupModes_cons]
        simp only [List.mem_cons, ih]
        tauto

theorem nodup_groupModes_insert (acc : List (String × List Nat)) (m : String) (t : Nat)
    (h : (groupModes acc).Nodup) :
    (groupModes (groupInsert acc m t)).Nodup := by
  induction acc with
  | nil =>
      show (groupModes [(m, [t])]).Nodup
      simp [groupModes_cons, groupModes_nil]
  | cons g rest ih =>
      rw [groupModes_cons, List.nodup_cons] at h
      by_cases hg : g.1 = m
      · show (groupModes (if g.1 = m then (g.1, g.2 ++ [t]) :: rest else _)).Nodup
        rw [if_pos hg, groupModes_cons, List.nodup_cons]
        exact h
      · show (groupModes (if g.1 = m then (g.1, g.2 ++ [t]) :: rest else g :: groupInsert rest m t)).Nodup
        rw [if_neg hg, groupModes_cons, List.nodup_cons]
        refine ⟨?_, ih h.2⟩
        rw [mem_groupModes_insert]
        rintro (hc | hc)
        · exact h.1 hc
        · exact hg hc

/-- Tokens already collected for a mode stay, and the fold appends exactly
the tokens of that mode, in map order. -/
theorem groupFold_lookup_some (l : List (Nat × String)) (acc : List (String × List Nat))
    (m : String) (g : List Nat) (h : groupLookup acc m = some g) :
    groupLookup (l.foldl (fun a p => groupInsert a p.2 p.1) acc) m =
      some (g ++ (l.filter (fun p => p.2 = m)).map Prod.fst) := by
  induction l generalizing acc g with
  | nil => simpa using h
  | cons p rest ih =>
      show groupLookup (rest.foldl _ (groupInsert acc p.2 p.1)) m = _
      by_cases hp : p.2 = m
      · have hlk : groupLookup (groupInsert acc p.2 p.1) m = some (g ++ [p.1]) := by
          rw [hp, groupLookup_insert_self, h]
          rfl
        rw [ih _ _ hlk]
        simp [hp, List.filter_cons]
      · have hlk : groupLookup (groupInsert acc p.2 p.1) m = some g := by
          rw [groupLookup_insert_ne acc p.2 p.1 m (fun hc => hp hc.symm)]
          exact h
        rw [ih _ _ hlk]
        simp [hp, List.filter_cons]

/-- A mode not yet present collects exactly the tokens of that mode. -/
theorem groupFold_lookup_none (l : List (Nat × String)) (acc : List (String × List Nat))
    (m : String) (h : groupLookup acc m = none) :
    groupLookup (l.foldl (fun a p => groupInsert a p.2 p.1) acc) m =
      if (l.filter (fun p => p.2 = m)) = [] then none
      else some ((l.filter (fun p => p.2 = m)).map Prod.fst) := by
  induction l generalizing acc with
  | nil => simpa using h
  | cons p rest ih =>
      show groupLookup (rest.foldl _ (groupInsert acc p.2 p.1)) m = _
      by_cases hp : p.2 = m
      · have hlk : groupLookup (groupInsert acc p.2 p.1) m = some [p.1] := by
          rw [hp, groupLookup_insert_self, h]
          rfl
        rw [groupFold_lookup_some rest _ m [p.1] hlk]
        simp [hp, List.filter_cons]
      · have hlk : groupLookup (groupInsert acc p.2 p.1) m = none := by
          rw [groupLookup_insert_ne acc p.2 p.1 m (fun hc => hp hc.symm)]
          exact h
        rw [ih _ hlk]
        rw [show List.filter (fun p => decide (p.2 = m)) (p :: rest)
            = List.filter (fun p => decide (p.2 = m)) rest by
          rw [List.filter_cons]
          simp [hp]]

theorem groupByMode_lookup (l : List (Nat × String)) (m : String) :
    groupLookup (groupByMode l) m =
      if (l.filter (fun p => p.2 = m)) = [] then none
      else some ((l.filter (fun p => p.2 = m)).map Prod.fst) :=
  groupFold_lookup_none l [] m rfl

theorem mem_groupModes_fold (l : List (Nat × String)) (acc : List (String × List Nat))
    (x : String) :
    x ∈ groupModes (l.foldl (fun a p => groupInsert a p.2 p.1) acc) ↔
      x ∈ groupModes acc ∨ ∃ t, (t, x) ∈ l := by
  induction l generalizing acc with
  | nil => simp
  | cons p rest ih =>
      show x ∈ groupModes (rest.foldl _ (groupInsert acc p.2 p.1)) ↔ _
      rw [ih, mem_groupModes_insert]
      constructor
      · rintro ((h | h) | ⟨t, h⟩)
        · exact Or.inl h
        · exact Or.inr ⟨p.1, h ▸ List.mem_cons_self p rest⟩
        · exact Or.inr ⟨t, List.mem_cons_of_mem p h⟩
      · rintro (h | ⟨t, h⟩)
        · exact Or.inl (Or.inl h)
        · rcases List.mem_cons.mp h with h | h
          · exact Or.inl (Or.inr (congrArg Prod.snd h))
          · exact Or.inr ⟨t, h⟩

theorem mem_groupModes_groupByMode (l : List (Nat × String)) (x : String) :
    x ∈ groupModes (groupByMode l) ↔ ∃ t, (t, x) ∈ l := by
  rw [groupByMode, mem_groupModes_fold]
  simp [groupModes_nil]

theorem nodup_groupModes_fold (l : List (Nat × String)) (acc : List (String × List Nat))
    (h : (groupModes acc).Nodup) :
    (groupModes (l.foldl (fun a p => groupInsert a p.2 p.1) acc)).Nodup := by
  induction l generalizing acc with
  | nil => exact h
  | cons p rest ih => exact ih _ (nodup_groupModes_insert acc p.2 p.1 h)

theorem nodup_groupModes_groupByMode (l : List (Nat × String)) :
    (groupModes (groupByMode l)).Nodup :=
  nodup_groupModes_fold l [] List.Pairwise.nil

/-- With distinct modes, first-match lookup of a member group finds exactly
that group. -/
theorem groupLookup_of_mem (L : List (String × List Nat)) (g : String × List Nat)
    (hnd : (groupModes L).Nodup) (hg : g ∈ L) :
    groupLookup L g.1 = some g.2 := by
  induction L with
  | nil => exact absurd hg (List.not_mem_nil g)
  | cons a rest ih =>
      rw [groupModes_cons, List.nodup_cons] at hnd
      rcases List.mem_cons.mp hg with h | h
      · rw [h]
        simp [groupLookup]
      · have hne : ¬ a.1 = g.1 := by
          intro hc
          exact hnd.1 (hc ▸ (List.mem_map_of_mem Prod.fst h))
        simp only [groupLookup, if_neg hne]
        exact ih hnd.2 h

/-- Every group of `groupByMode l` holds exactly the tokens of its mode, in
map order, and is non-empty. -/
theorem groupByMode_group_eq (l : List (Nat × String)) (g : String × List Nat)
    (hg : g ∈ groupByMode l) :
    g.2 = (l.filter (fun p => p.2 = g.1)).map Prod.fst ∧ g.2 ≠ [] := by
  have h1 := groupLookup_of_mem (groupByMode l) g (nodup_groupModes_groupByMode l) hg
  rw [groupByMode_lookup] at h1
  by_cases he : (l.filter (fun p => p.2 = g.1)) = []
  · rw [if_pos he] at h1
    exact absurd h1 (by simp)
  · rw [if_neg he] at h1
    have h2 : g.2 = (l.filter (fun p => p.2 = g.1)).map Prod.fst := by
      injection h1 with h1
      exact h1.symm
    refine ⟨h2, ?_⟩
    rw [h2]
    intro hc
    exact he (List.map_eq_nil_iff.mp hc)

/-! ### Resubscription trace -/

theorem filterSubCalls_append (a b : List VendorCall) :
    filterSubCalls (a ++ b) = filterSubCalls a ++ filterSubCalls b := by
  unfold filterSubCalls
  rw [List.filter_append]

/-- Each group of the resubscription loop issues its own vendor `subscribe`
call (exactly when its resolved mode passes validation), independently of the
outcome of every other group: an exception in one group is caught and the
loop continues. -/
theorem resubFold_filterSub (v : Vendor) (groups : List (String × List Nat))
    (s0 : TrackerState) (acc : List VendorCall) :
    filterSubCalls ((groups.foldl
        (fun a g =>
          let r := subscribe v a.1 g.2 (some g.1)
          (r.state, a.2 ++ r.calls)) (s0, acc)).2) =
      filterSubCalls acc ++
        (groups.filter (fun g => decide (resolveMode (some g.1) ∈ validModes))).map
          (fun g => VendorCall.subscribe g.2) := by
  induction groups generalizing s0 acc with
  | nil => simp
  | cons g rest ih =>
      show filterSubCalls ((rest.foldl _
          ((subscribe v s0 g.2 (some g.1)).state,
            acc ++ (subscribe v s0 g.2 (some g.1)).calls)).2) = _
      rw [ih, filterSubCalls_append, subscribe_filterSub, List.filter_cons]
      by_cases hm : resolveMode (some g.1) ∈ validModes
      · rw [if_pos hm, if_pos (by simpa using hm), List.map_cons]
        simp [List.append_assoc]
      · rw [if_neg hm, if_neg (by simpa using hm)]
        simp

/-- The `subscribe` calls `_resubscribe_all` issues are exactly one per group
whose resolved mode is valid, each carrying that group's token list. -/
theorem resubscribe_all_filterSub (v : Vendor) (s : TrackerState) :
    filterSubCalls (resubscribe_all v s).2 =
      ((groupByMode s.subscribedInstruments).filter
        (fun g => decide (resolveMode (some g.1) ∈ validModes))).map
        (fun g => VendorCall.subscribe g.2) := by
  unfold resubscribe_all
  by_cases h : s.subscribedInstruments = []
  · rw [if_pos h, h]
    rfl
  · rw [if_neg h]
    have := resubFold_filterSub v (groupByMode s.subscribedInstruments) s []
    simpa using this

/-- When every stored mode is valid (as every mode recorded by a validated
`subscribe` is), `_resubscribe_all` issues exactly one vendor `subscribe`
call per mode group. -/
theorem resubscribe_all_filterSub_valid (v : Vendor) (s : TrackerState)
    (hval : ∀ p ∈ s.subscribedInstruments, p.2 ∈ validModes) :
    filterSubCalls (resubscribe_all v s).2 =
      (groupByMode s.subscribedInstruments).map (fun g => VendorCall.subscribe g.2) := by
  rw [resubscribe_all_filterSub]
  have hfil : (groupByMode s.subscribedInstruments).filter
      (fun g => decide (resolveMode (some g.1) ∈ validModes)) =
      groupByMode s.subscribedInstruments := by
    rw [List.filter_eq_self]
    intro g hg
    have hmem : g.1 ∈ groupModes (groupByMode s.subscribedInstruments) :=
      List.mem_map_of_mem Prod.fst hg
    rw [mem_groupModes_groupByMode] at hmem
    obtain ⟨t, ht⟩ := hmem
    have h2 := hval (t, g.1) ht
    rw [resolveMode_of_valid _ h2]
    simpa using h2
  rw [hfil]

/-- The tokens carried by the groups of `groupByMode l`, taken together, are
exactly the keys of `l`. -/
theorem groupByMode_union (l : List (Nat × String)) (t : Nat) :
    (∃ g ∈ groupByMode l, t ∈ g.2) ↔ t ∈ dictKeys l := by
  constructor
  · rintro ⟨g, hg, ht⟩
    obtain ⟨heq, -⟩ := groupByMode_group_eq l g hg
    rw [heq] at ht
    obtain ⟨p, hp, hpt⟩ := List.mem_map.mp ht
    exact List.mem_map.mpr ⟨p, List.mem_of_mem_filter hp, hpt⟩
  · intro ht
    obtain ⟨p, hpl, hpt⟩ := List.mem_map.mp ht
    have hm : p.2 ∈ groupModes (groupByMode l) :=
      (mem_groupModes_groupByMode l p.2).mpr ⟨p.1, hpl⟩
    obtain ⟨g, hgmem, hgfst⟩ := List.mem_map.mp hm
    refine ⟨g, hgmem, ?_⟩
    obtain ⟨heq, -⟩ := groupByMode_group_eq l g hgmem
    rw [heq]
    refine List.mem_map.mpr ⟨p, ?_, hpt⟩
    rw [List.mem_filter]
    exact ⟨hpl, by rw [hgfst]; simp⟩

/-! ### Bounded-history (FIFO eviction) lemmas -/

/-- Appending one entry to a history that is the 1000-suffix of the entries
delivered so far yields the 1000-suffix of the extended delivery list. -/
theorem appendTick_drop (d : List TickEntry) (e : TickEntry) :
    appendTick (d.drop (d.length - 1000)) e =
      (d ++ [e]).drop ((d ++ [e]).length - 1000) := by
  by_cases hn : d.length ≤ 1000
  · have h0 : d.length - 1000 = 0 := by omega
    rw [h0, List.drop_zero]
    show (if (d ++ [e]).length > 1000
        then (d ++ [e]).drop ((d ++ [e]).length - 1000) else d ++ [e]) = _
    by_cases hb : (d ++ [e]).length > 1000
    · rw [if_pos hb]
    · rw [if_neg hb]
      have h1 : (d ++ [e]).length - 1000 = 0 := by omega
      rw [h1, List.drop_zero]
  · have hgt : 1000 < d.length := by omega
    have hlen : (d.drop (d.length - 1000)).length = 1000 := by
      rw [List.length_drop]
      omega
    show (if ((d.drop (d.length - 1000)) ++ [e]).length > 1000
        then ((d.drop (d.length - 1000)) ++ [e]).drop
          (((d.drop (d.length - 1000)) ++ [e]).length - 1000)
        else (d.drop (d.length - 1000)) ++ [e]) = _
    have hlen2 : ((d.drop (d.length - 1000)) ++ [e]).length = 1001 := by
      rw [List.length_append, hlen]
      rfl
    rw [if_pos (by rw [hlen2]; omega), hlen2]
    have h1 : (1001 : Nat) - 1000 = 1 := rfl
    rw [h1, List.drop_append_of_le_length (by rw [hlen]; omega), List.drop_drop]
    have h2 : (d ++ [e]).length - 1000 = (d.length - 1000) + 1 := by
      rw [List.length_append]
      simp only [List.length_cons, List.length_nil]
      omega
    rw [h2, List.drop_append_of_le_length (by omega)]

/-- Folding `appendTick` over new entries keeps the history equal to the
1000-suffix of all entries delivered. -/
theorem foldl_appendTick_drop (es : List TickEntry) (d : List TickEntry) :
    es.foldl appendTick (d.drop (d.length - 1000)) =
      (d ++ es).drop ((d ++ es).length - 1000) := by
  induction es generalizing d with
  | nil => rw [List.foldl_nil, List.append_nil]
  | cons e rest ih =>
      rw [List.foldl_cons, appendTick_drop, ih (d ++ [e])]
      simp

theorem recordTick_tickData_eq (s : TrackerState) (now : Nat) (tick : Tick) (t : Nat) :
    (recordTick s now tick).tickData t =
      if t = tick.instrument_token
      then appendTick (s.tickData tick.instrument_token) ⟨now, tick⟩
      else s.tickData t := rfl

theorem recordTick_latest_eq (s : TrackerState) (now : Nat) (tick : Tick) (t : Nat) :
    (recordTick s now tick).latestTicks t =
      if t = tick.instrument_token then some tick else s.latestTicks t := rfl

/-- Per token, the batch loop folds `appendTick` over exactly that token's
entries of the batch, in delivery order. -/
theorem recordFold_tickData (batch : List Tick) (now : Nat) (t : Nat) (s0 : TrackerState) :
    (batch.foldl (fun a tk => recordTick a now tk) s0).tickData t =
      (entriesFor t now batch).foldl appendTick (s0.tickData t) := by
  induction batch generalizing s0 with
  | nil => rfl
  | cons tk rest ih =>
      show (rest.foldl _ (recordTick s0 now tk)).tickData t = _
      rw [ih]
      by_cases h : tk.instrument_token = t
      · have e1 : (recordTick s0 now tk).tickData t =
            appendTick (s0.tickData t) ⟨now, tk⟩ := by
          rw [recordTick_tickData_eq, if_pos h.symm, h]
        have e2 : entriesFor t now (tk :: rest) =
            TickEntry.mk now tk :: entriesFor t now rest := by
          unfold entriesFor
          rw [List.filter_cons, if_pos (by simpa using h)]
          rfl
        rw [e1, e2]
        rfl
      · have e1 : (recordTick s0 now tk).tickData t = s0.tickData t := by
          rw [recordTick_tickData_eq, if_neg (fun hc => h hc.symm)]
        have e2 : entriesFor t now (tk :: rest) = entriesFor t now rest := by
          unfold entriesFor
          rw [List.filter_cons, if_neg (by simpa using h)]
        rw [e1, e2]

theorem recordBatch_tickData (s : TrackerState) (now : Nat) (ticks : List Tick) (t : Nat) :
    (recordBatch s now ticks).tickData t =
      (entriesFor t now ticks).foldl appendTick (s.tickData t) := by
  unfold recordBatch
  rw [recordFold_tickData]

theorem getLastD_cons {α : Type} (l : List α) (a : α) (d : α) :
    ((a :: l).getLast?).getD d = (l.getLast?).getD a := by
  induction l generalizing a d with
  | nil => rfl
  | cons b rest ih =>
      rw [List.getLast?_cons_cons, ih b d, ih b a]

/-- Per token, the batch loop leaves the latest-tick snapshot at the last
tick of the batch for that token, or unchanged if the batch has none. -/
theorem recordFold_latest (batch : List Tick) (now : Nat) (t : Nat) (s0 : TrackerState) :
    (batch.foldl (fun a tk => recordTick a now tk) s0).latestTicks t =
      (((batch.filter (fun tk => tk.instrument_token = t)).map some).getLast?).getD
        (s0.latestTicks t) := by
  induction batch generalizing s0 with
  | nil => rfl
  | cons tk rest ih =>
      show (rest.foldl _ (recordTick s0 now tk)).latestTicks t = _
      rw [ih]
      by_cases h : tk.instrument_token = t
      · have e1 : (recordTick s0 now tk).latestTicks t = some tk := by
          rw [recordTick_latest_eq, if_pos h.symm]
        rw [e1, List.filter_cons, if_pos (by simpa using h), List.map_cons, getLastD_cons]
      · have e1 : (recordTick s0 now tk).latestTicks t = s0.latestTicks t := by
          rw [recordTick_latest_eq, if_neg (fun hc => h hc.symm)]
        rw [e1, List.filter_cons, if_neg (by simpa using h)]

theorem recordBatch_latest (s : TrackerState) (now : Nat) (ticks : List Tick) (t : Nat) :
    (recordBatch s now ticks).latestTicks t =
      (((ticks.filter (fun tk => tk.instrument_token = t)).map some).getLast?).getD
        (s.latestTicks t) := by
  unfold recordBatch
  rw [recordFold_latest]

theorem recordBatch_lastTickTime (s : TrackerState) (now : Nat) (ticks : List Tick) :
    (recordBatch s now ticks).lastTickTime = some now := by
  obtain ⟨f, g, hf⟩ := recordBatch_shape s now ticks
  rw [hf]

/-! ### Per-operation effect on tick history -/

/-- Only a tick delivery changes any tick history; every other operation
leaves the `tick_data` store untouched. -/
theorem step_tickData (v : Vendor) (s : TrackerState) (op : Op) :
    (step v s op).tickData =
      match op with
      | Op.ticksEvent now batch => (recordBatch s now batch).tickData
      | _ => s.tickData := by
  cases op with
  | sub tokens mode =>
      obtain ⟨l, hl⟩ := subscribe_state_shape v s tokens mode
      show (subscribe v s tokens mode).state.tickData = s.tickData
      rw [hl]
  | unsub tokens =>
      obtain ⟨l, f, hl⟩ := unsubscribe_state_shape v s tokens
      show (unsubscribe v s tokens).state.tickData = s.tickData
      rw [hl]
  | chMode m tokens =>
      obtain ⟨l, hl⟩ := set_mode_state_shape v s m tokens
      show (set_mode v s m tokens).state.tickData = s.tickData
      rw [hl]
  | ticksEvent now batch =>
      show (match on_ticks s now batch with
        | Except.ok r => r.1
        | Except.error _ => s).tickData = (recordBatch s now batch).tickData
      rw [on_ticks_eq]
  | connectEvent resp =>
      obtain ⟨l, hl⟩ := connectStep_shape v s
      show (match on_connect v s resp with
        | Except.ok r => r.1
        | Except.error _ => s).tickData = s.tickData
      rw [on_connect_eq]
      show (connectStep v s).1.tickData = s.tickData
      rw [hl]
      rfl
  | closeEvent code reason =>
      show (match on_close s code reason with
        | Except.ok r => r.1
        | Except.error _ => s).tickData = s.tickData
      rw [on_close_eq]
  | errorEvent code reason =>
      show (match on_error s code reason with
        | Except.ok r => r.1
        | Except.error _ => s).tickData = s.tickData
      rw [on_error_eq]
  | orderEvent now data =>
      show (match on_order_update s now data with
        | Except.ok r => r.1
        | Except.error _ => s).tickData = s.tickData
      rw [on_order_update_eq]

/-- Rebasing the `deliveredFor` accumulator. -/
theorem deliveredFor_acc (t : Nat) (ops : List Op) (acc : List TickEntry) :
    ops.foldl
      (fun acc op =>
        match op with
        | Op.ticksEvent now batch => acc ++ entriesFor t now batch
        | _ => acc) acc = acc ++ deliveredFor t ops := by
  induction ops generalizing acc with
  | nil => simp [deliveredFor]
  | cons op rest ih =>
      cases op with
      | ticksEvent now batch =>
          show rest.foldl _ (acc ++ entriesFor t now batch) = _
          rw [ih]
          have h2 : deliveredFor t (Op.ticksEvent now batch :: rest) =
              ([] ++ entriesFor t now batch) ++ deliveredFor t rest := by
            unfold deliveredFor
            exact ih ([] ++ entriesFor t now batch)
          rw [h2]
          simp [List.append_assoc]
      | sub tokens mode => exact ih acc
      | unsub tokens => exact ih acc
      | chMode m tokens => exact ih acc
      | connectEvent resp => exact ih acc
      | closeEvent code reason => exact ih acc
      | errorEvent code reason => exact ih acc
      | orderEvent now data => exact ih acc

theorem deliveredFor_cons_ticks (t : Nat) (now : Nat) (batch : List Tick) (rest : List Op) :
    deliveredFor t (Op.ticksEvent now batch :: rest) =
      entriesFor t now batch ++ deliveredFor t rest := by
  unfold deliveredFor
  have := deliveredFor_acc t rest ([] ++ entriesFor t now batch)
  simpa using this

/-- From a fresh tracker, each token's stored history is, at every point,
exactly the 1000-suffix (the most recent 1000, oldest first) of everything
delivered for that token. -/
theorem runSteps_tickData_drop (v : Vendor) (ops : List Op) (t : Nat) :
    ∀ (s : TrackerState) (d : List TickEntry),
      s.tickData t = d.drop (d.length - 1000) →
      (runSteps v s ops).tickData t =
        (d ++ deliveredFor t ops).drop ((d ++ deliveredFor t ops).length - 1000) := by
  induction ops with
  | nil =>
      intro s d h
      show s.tickData t = _
      simpa [deliveredFor] using h
  | cons op rest ih =>
      intro s d h
      show (runSteps v (step v s op) rest).tickData t = _
      cases op with
      | ticksEvent now batch =>
          have hstep : (step v s (Op.ticksEvent now batch)).tickData =
              (recordBatch s now batch).tickData := step_tickData v s _
          have hrec : (recordBatch s now batch).tickData t =
              (d ++ entriesFor t now batch).drop
                ((d ++ entriesFor t now batch).length - 1000) := by
            rw [recordBatch_tickData, h]
            exact foldl_appendTick_drop (entriesFor t now batch) d
          have hmain := ih (step v s (Op.ticksEvent now batch))
            (d ++ entriesFor t now batch) (by rw [hstep]; exact hrec)
          rw [hmain, deliveredFor_cons_ticks, List.append_assoc]
      | sub tokens mode =>
          exact ih _ d (by rw [step_tickData]; exact h)
      | unsub tokens =>
          exact ih _ d (by rw [step_tickData]; exact h)
      | chMode m tokens =>
          exact ih _ d (by rw [step_tickData]; exact h)
      | connectEvent resp =>
          exact ih _ d (by rw [step_tickData]; exact h)
      | closeEvent code reason =>
          exact ih _ d (by rw [step_tickData]; exact h)
      | errorEvent code reason =>
          exact ih _ d (by rw [step_tickData]; exact h)
      | orderEvent now data =>
          exact ih _ d (by rw [step_tickData]; exact h)

/-! ### Net effect of subscribe/unsubscribe sequences -/

theorem step_sub_alwaysOk (s : TrackerState) (tokens : List Nat) (mode : Option String)
    (hm : resolveMode mode ∈ validModes) :
    step alwaysOkVendor s (Op.sub tokens mode) =
      { s with subscribedInstruments :=
          recordTokens s.subscribedInstruments tokens (resolveMode mode) } :=
  (subscribe_ok alwaysOkVendor s tokens mode hm rfl rfl).1

theorem step_unsub_alwaysOk (s : TrackerState) (tokens : List Nat) :
    step alwaysOkVendor s (Op.unsub tokens) =
      { s with
          subscribedInstruments := tokens.foldl dictErase s.subscribedInstruments,
          latestTicks := fun t => if t ∈ tokens then none else s.latestTicks t } :=
  (unsubscribe_ok alwaysOkVendor s tokens rfl).1

/-- Over any sequence of valid `subscribe`/`unsubscribe` calls, the map entry
of each token evolves exactly by `lastSubUpdate`. -/
theorem runSteps_lookup (ops : List Op) (t : Nat) :
    ∀ s, (∀ op ∈ ops, isSubUnsub op = true) → (∀ op ∈ ops, opModeValid op = true) →
      dictLookup (runSteps alwaysOkVendor s ops).subscribedInstruments t =
        ops.foldl (lastSubUpdate t) (dictLookup s.subscribedInstruments t) := by
  induction ops with
  | nil => intro s _ _; rfl
  | cons op rest ih =>
      intro s hsu hval
      have hsu1 := hsu op (List.mem_cons_self op rest)
      have hval1 := hval op (List.mem_cons_self op rest)
      have hsur : ∀ o ∈ rest, isSubUnsub o = true :=
        fun o ho => hsu o (List.mem_cons_of_mem op ho)
      have hvalr : ∀ o ∈ rest, opModeValid o = true :=
        fun o ho => hval o (List.mem_cons_of_mem op ho)
      show dictLookup
        (runSteps alwaysOkVendor (step alwaysOkVendor s op) rest).subscribedInstruments t = _
      cases op with
      | sub tokens mode =>
          have hm : resolveMode mode ∈ validModes := by
            simpa [opModeValid] using hval1
          have hstart : dictLookup
              (step alwaysOkVendor s (Op.sub tokens mode)).subscribedInstruments t =
              lastSubUpdate t (dictLookup s.subscribedInstruments t) (Op.sub tokens mode) := by
            rw [step_sub_alwaysOk s tokens mode hm]
            show dictLookup (recordTokens s.subscribedInstruments tokens (resolveMode mode)) t = _
            rw [dictLookup_recordTokens]
            rfl
          rw [ih _ hsur hvalr, hstart, List.foldl_cons]
      | unsub tokens =>
          have hstart : dictLookup
              (step alwaysOkVendor s (Op.unsub tokens)).subscribedInstruments t =
              lastSubUpdate t (dictLookup s.subscribedInstruments t) (Op.unsub tokens) := by
            rw [step_unsub_alwaysOk s tokens]
            show dictLookup (tokens.foldl dictErase s.subscribedInstruments) t = _
            rw [dictLookup_eraseFold]
            rfl
          rw [ih _ hsur hvalr, hstart, List.foldl_cons]
      | chMode m tokens => simp [isSubUnsub] at hsu1
      | ticksEvent now batch => simp [isSubUnsub] at hsu1
      | connectEvent resp => simp [isSubUnsub] at hsu1
      | closeEvent code reason => simp [isSubUnsub] at hsu1
      | errorEvent code reason => simp [isSubUnsub] at hsu1
      | orderEvent now data => simp [isSubUnsub] at hsu1

/-- Valid `subscribe`/`unsubscribe` sequences keep the map's keys distinct. -/
theorem runSteps_nodup (ops : List Op) :
    ∀ s, (∀ op ∈ ops, isSubUnsub op = true) → (∀ op ∈ ops, opModeValid op = true) →
      (dictKeys s.subscribedInstruments).Nodup →
      (dictKeys (runSteps alwaysOkVendor s ops).subscribedInstruments).Nodup := by
  induction ops with
  | nil => intro s _ _ h; exact h
  | cons op rest ih =>
      intro s hsu hval hnd
      have hsu1 := hsu op (List.mem_cons_self op rest)
      have hval1 := hval op (List.mem_cons_self op rest)
      have hsur : ∀ o ∈ rest, isSubUnsub o = true :=
        fun o ho => hsu o (List.mem_cons_of_mem op ho)
      have hvalr : ∀ o ∈ rest, opModeValid o = true :=
        fun o ho => hval o (List.mem_cons_of_mem op ho)
      show (dictKeys (runSteps alwaysOkVendor (step alwaysOkVendor s op)
        rest).subscribedInstruments).Nodup
      cases op with
      | sub tokens mode =>
          have hm : resolveMode mode ∈ validModes := by
            simpa [opModeValid] using hval1
          refine ih _ hsur hvalr ?_
          rw [step_sub_alwaysOk s tokens mode hm]
          exact nodup_recordTokens tokens s.subscribedInstruments (resolveMode mode) hnd
      | unsub tokens =>
          refine ih _ hsur hvalr ?_
          rw [step_unsub_alwaysOk s tokens]
          exact nodup_eraseFold tokens s.subscribedInstruments hnd
      | chMode m tokens => simp [isSubUnsub] at hsu1
      | ticksEvent now batch => simp [isSubUnsub] at hsu1
      | connectEvent resp => simp [isSubUnsub] at hsu1
      | closeEvent code reason => simp [isSubUnsub] at hsu1
      | errorEvent code reason => simp [isSubUnsub] at hsu1
      | orderEvent now data => simp [isSubUnsub] at hsu1

/-! ### Claim theorems -/

/-- Claim C1: for every finite sequence of `subscribe`/`unsubscribe` calls
(valid modes, vendor calls succeeding), the final subscription map holds
exactly the tokens whose last relevant call was a subscribe, each with the
mode of that last subscribe; tokens last unsubscribed are absent; and the map
never holds duplicate entries (re-subscribing overwrites the mode). -/
theorem c1_subscription_map_net_effect (ops : List Op) (t : Nat)
    (hsu : ∀ op ∈ ops, isSubUnsub op = true)
    (hval : ∀ op ∈ ops, opModeValid op = true) :
    dictLookup (runSteps alwaysOkVendor initialState ops).subscribedInstruments t =
      lastSubSpec ops t
    ∧ (dictKeys (runSteps alwaysOkVendor initialState ops).subscribedInstruments).Nodup := by
  constructor
  · rw [runSteps_lookup ops t initialState hsu hval]
    rfl
  · exact runSteps_nodup ops initialState hsu hval List.Pairwise.nil

/-- Witness for C1 at a concrete call sequence: subscribe 100 as `quote`,
re-subscribe it as `full` (mode overwritten), unsubscribe 200. -/
theorem c1_subscription_map_net_effect_witness :
    dictLookup (runSteps alwaysOkVendor initialState
        [Op.sub [100] (some "quote"), Op.sub [100] (some "full"),
          Op.unsub [200]]).subscribedInstruments 100 =
      lastSubSpec
        [Op.sub [100] (some "quote"), Op.sub [100] (some "full"), Op.unsub [200]] 100 :=
  (c1_subscription_map_net_effect
    [Op.sub [100] (some "quote"), Op.sub [100] (some "full"), Op.unsub [200]] 100
    (by decide) (by decide)).1

/-- Claim C3: for every sequence of operations on a fresh tracker, each
token's history never exceeds 1000 entries, and equals exactly the most
recent (at most) 1000 entries delivered for that token, oldest first — FIFO
eviction. -/
theorem c3_tick_history_bounded_fifo (v : Vendor) (ops : List Op) (t : Nat) :
    ((runSteps v initialState ops).tickData t).length ≤ 1000
    ∧ get_tick_history (runSteps v initialState ops) t none =
        (deliveredFor t ops).drop ((deliveredFor t ops).length - 1000) := by
  have h := runSteps_tickData_drop v ops t initialState [] rfl
  rw [List.nil_append] at h
  constructor
  · rw [h, List.length_drop]
    omega
  · exact h

/-! ### Mode validation (C5), vendor-failure atomicity (C10), unsubscribe
frame (C7), set_mode no-op (C8) -/

/-- In every branch with a valid resolved mode, `subscribe` never raises the
invalid-mode `ValueError` (only vendor errors can occur). -/
theorem subscribe_err_valid (v : Vendor) (s : TrackerState) (instruments : List Nat)
    (mode : Option String) (hval : resolveMode mode ∈ validModes) :
    (subscribe v s instruments mode).err = none
    ∨ (subscribe v s instruments mode).err = some TickerError.vendorError := by
  unfold subscribe
  rw [if_pos hval]
  by_cases h1 : v.subscribeOk instruments
  · rw [if_pos h1]
    by_cases hq : resolveMode mode = modeQUOTE
    · rw [if_pos hq]
      exact Or.inl rfl
    · rw [if_neg hq]
      by_cases h2 : v.setModeOk (resolveMode mode) instruments
      · rw [if_pos h2]
        exact Or.inl rfl
      · rw [if_neg h2]
        exact Or.inr rfl
  · rw [if_neg h1]
    exact Or.inr rfl

/-- Counterexample to claim C5 as stated: the empty string is a mode outside
{ltp, quote, full}, yet `subscribe` raises nothing — Python's
`mode = mode or self.kws.MODE_QUOTE` treats the falsy empty string as an
omitted mode, so the call validates as `quote`, succeeds, and records the
token. -/
theorem c5_counterexample :
    ¬ ("" ∈ validModes)
    ∧ (subscribe alwaysOkVendor initialState [100] (some "")).err = none
    ∧ dictLookup (subscribe alwaysOkVendor initialState [100]
        (some "")).state.subscribedInstruments 100 = some modeQUOTE :=
  ⟨by decide, by decide, by decide⟩

/-- Claim C5 amended: a non-empty mode string outside {ltp, quote, full}
makes `subscribe` fail with the invalid-mode error before any vendor call and
before recording any token; a mode in the set, an omitted mode, or the empty
string (falsy, hence treated as omitted and defaulted to quote) never raises
the invalid-mode error. -/
theorem c5_mode_validation (v : Vendor) (s : TrackerState) (instruments : List Nat)
    (mode : Option String) :
    (∀ m, mode = some m → m ≠ "" → m ∉ validModes →
      (subscribe v s instruments mode).err = some TickerError.invalidMode
      ∧ (subscribe v s instruments mode).calls = []
      ∧ (subscribe v s instruments mode).state = s)
    ∧ (resolveMode mode ∈ validModes →
      (subscribe v s instruments mode).err ≠ some TickerError.invalidMode) := by
  constructor
  · intro m hm hne hnv
    have hr : resolveMode mode = m := by
      rw [hm]
      show (if m = "" then modeQUOTE else m) = m
      rw [if_neg hne]
    have hnot : resolveMode mode ∉ validModes := by
      rw [hr]
      exact hnv
    obtain ⟨h1, h2, h3⟩ := subscribe_invalid_mode v s instruments mode hnot
    exact ⟨h3, h2, h1⟩
  · intro hval
    rcases subscribe_err_valid v s instruments mode hval with h | h <;> rw [h] <;> simp

/-- Witness for C5 (amended) at a concrete invalid mode: `subscribe` with
mode `bogus` raises the invalid-mode error, issues no vendor call and records
nothing. -/
theorem c5_mode_validation_witness :
    (subscribe alwaysOkVendor initialState [1] (some "bogus")).err =
      some TickerError.invalidMode
    ∧ (subscribe alwaysOkVendor initialState [1] (some "bogus")).calls = []
    ∧ (subscribe alwaysOkVendor initialState [1] (some "bogus")).state = initialState :=
  (c5_mode_validation alwaysOkVendor initialState [1] (some "bogus")).1
    "bogus" rfl (by decide) (by decide)

/-- Claim C10: with a valid mode, a failing vendor `subscribe` or `set_mode`
call makes the wrapper re-raise the exception to the caller with the tracker
state (subscription map, latest ticks, tick histories) exactly unchanged —
tokens are recorded only after all vendor calls succeed. -/
theorem c10_subscribe_vendor_failure_atomic (v : Vendor) (s : TrackerState)
    (instruments : List Nat) (mode : Option String)
    (hm : resolveMode mode ∈ validModes)
    (hfail : v.subscribeOk instruments = false ∨
      (resolveMode mode ≠ modeQUOTE ∧ v.setModeOk (resolveMode mode) instruments = false)) :
    (subscribe v s instruments mode).err = some TickerError.vendorError
    ∧ (subscribe v s instruments mode).state = s := by
  obtain ⟨h1, h2⟩ := subscribe_vendor_fail v s instruments mode hm hfail
  exact ⟨h2, h1⟩

/-- Witness for C10: a vendor whose `subscribe` raises leaves a fresh tracker
exactly in its initial state and re-raises. -/
theorem c10_subscribe_vendor_failure_atomic_witness :
    (subscribe subFailVendor initialState [7] (some "full")).err =
      some TickerError.vendorError
    ∧ (subscribe subFailVendor initialState [7] (some "full")).state = initialState :=
  c10_subscribe_vendor_failure_atomic subFailVendor initialState [7] (some "full")
    (by decide) (Or.inl rfl)

/-- Claim C7: after a successful `unsubscribe`, the latest tick of each
unsubscribed token reads absent and the token is gone from the subscription
map, while every token's tick history is exactly as before (history is not
purged), and other tokens' latest ticks and map entries are unchanged. -/
theorem c7_unsubscribe_frame (v : Vendor) (s : TrackerState) (tokens : List Nat)
    (hv : v.unsubscribeOk tokens = true) :
    (unsubscribe v s tokens).err = none
    ∧ (∀ t ∈ tokens, get_latest_tick (unsubscribe v s tokens).state t = none
        ∧ dictLookup (unsubscribe v s tokens).state.subscribedInstruments t = none)
    ∧ (∀ t, get_tick_history (unsubscribe v s tokens).state t none =
        get_tick_history s t none)
    ∧ (∀ t, t ∉ tokens → get_latest_tick (unsubscribe v s tokens).state t =
          get_latest_tick s t
        ∧ dictLookup (unsubscribe v s tokens).state.subscribedInstruments t =
            dictLookup s.subscribedInstruments t) := by
  obtain ⟨hstate, herr⟩ := unsubscribe_ok v s tokens hv
  refine ⟨herr, ?_, ?_, ?_⟩
  · intro t ht
    rw [hstate]
    constructor
    · show (if t ∈ tokens then none else s.latestTicks t) = none
      rw [if_pos ht]
    · show dictLookup (tokens.foldl dictErase s.subscribedInstruments) t = none
      rw [dictLookup_eraseFold, if_pos ht]
  · intro t
    rw [hstate]
    rfl
  · intro t ht
    rw [hstate]
    constructor
    · show (if t ∈ tokens then none else s.latestTicks t) = get_latest_tick s t
      rw [if_neg ht]
      rfl
    · show dictLookup (tokens.foldl dictErase s.subscribedInstruments) t = _
      rw [dictLookup_eraseFold, if_neg ht]

/-- Witness for C7: unsubscribe token 5 after one delivered tick; the latest
tick reads absent while the one-entry history is untouched. -/
theorem c7_unsubscribe_frame_witness :
    alwaysOkVendor.unsubscribeOk [5] = true
    ∧ get_latest_tick (unsubscribe alwaysOkVendor
        (recordBatch initialState 3 [Tick.mk 5 42]) [5]).state 5 = none :=
  ⟨rfl,
    ((c7_unsubscribe_frame alwaysOkVendor
      (recordBatch initialState 3 [Tick.mk 5 42]) [5] rfl).2.1 5 (by decide)).1⟩

theorem dictLookup_setModeFold (instruments : List Nat) (l : List (Nat × String))
    (mode : String) (t : Nat) :
    dictLookup (setModeFold l mode instruments) t =
      if t ∈ instruments ∧ (dictLookup l t).isSome then some mode
      else dictLookup l t := by
  induction instruments generalizing l with
  | nil => simp [setModeFold]
  | cons tok rest ih =>
      show dictLookup
        (setModeFold (if (dictLookup l tok).isSome then dictInsert l tok mode else l)
          mode rest) t = _
      by_cases hsome : (dictLookup l tok).isSome
      · rw [if_pos hsome, ih]
        by_cases ht : t = tok
        · subst ht
          rw [dictLookup_insert_self]
          have h1 : (dictLookup l t).isSome = true := hsome
          simp [List.mem_cons, h1]
        · rw [dictLookup_insert_ne l tok mode t ht]
          have hmem : (t ∈ tok :: rest) ↔ (t ∈ rest) := by
            rw [List.mem_cons]
            simp [ht]
          simp only [hmem]
      · rw [if_neg hsome, ih]
        by_cases ht : t = tok
        · subst ht
          have h1 : (dictLookup l t).isSome = false := by
            simpa using hsome
          rw [h1]
          simp
        · have hmem : (t ∈ tok :: rest) ↔ (t ∈ rest) := by
            rw [List.mem_cons]
            simp [ht]
          simp only [hmem]

/-- When none of the requested tokens is subscribed, the `set_mode` tracking
loop leaves the map literally unchanged. -/
theorem setModeFold_of_absent (instruments : List Nat) (l : List (Nat × String))
    (mode : String) (h : ∀ t ∈ instruments, dictLookup l t = none) :
    setModeFold l mode instruments = l := by
  induction instruments with
  | nil => rfl
  | cons tok rest ih =>
      show setModeFold (if (dictLookup l tok).isSome then dictInsert l tok mode else l)
        mode rest = l
      rw [if_neg (by rw [h tok (List.mem_cons_self tok rest)]; simp)]
      exact ih (fun t ht => h t (List.mem_cons_of_mem tok ht))

/-- Claim C8: a successful `setMode` updates the stored mode of exactly the
requested tokens that are present in the subscription map; absent tokens are
silently skipped — the map gains no entry and, when no requested token is
present, is literally unchanged — and no error is raised. -/
theorem c8_set_mode_skips_absent (v : Vendor) (s : TrackerState) (mode : String)
    (tokens : List Nat) (hv : v.setModeOk mode tokens = true) :
    (set_mode v s mode tokens).err = none
    ∧ (∀ t, dictLookup (set_mode v s mode tokens).state.subscribedInstruments t =
        if t ∈ tokens ∧ (dictLookup s.subscribedInstruments t).isSome then some mode
        else dictLookup s.subscribedInstruments t)
    ∧ ((∀ t ∈ tokens, dictLookup s.subscribedInstruments t = none) →
        (set_mode v s mode tokens).state.subscribedInstruments = s.subscribedInstruments) := by
  obtain ⟨hstate, herr⟩ := set_mode_ok v s mode tokens hv
  refine ⟨herr, ?_, ?_⟩
  · intro t
    rw [hstate]
    show dictLookup (setModeFold s.subscribedInstruments mode tokens) t = _
    rw [dictLookup_setModeFold]
  · intro habs
    rw [hstate]
    show setModeFold s.subscribedInstruments mode tokens = s.subscribedInstruments
    rw [setModeFold_of_absent tokens s.subscribedInstruments mode habs]

/-- Witness for C8 at the spec's scenario: after subscribing token 100 in
`quote` mode, `set_mode("full", [999])` with 999 unsubscribed leaves the
subscription map unchanged. -/
theorem c8_set_mode_skips_absent_witness :
    alwaysOkVendor.setModeOk "full" [999] = true
    ∧ (set_mode alwaysOkVendor
        (subscribe alwaysOkVendor initialState [100] (some "quote")).state
        "full" [999]).state.subscribedInstruments =
      (subscribe alwaysOkVendor initialState [100]
        (some "quote")).state.subscribedInstruments :=
  ⟨rfl,
    (c8_set_mode_skips_absent alwaysOkVendor
      (subscribe alwaysOkVendor initialState [100] (some "quote")).state
      "full" [999] rfl).2.2 (by decide)⟩

/-- Claim C2: a first connect (counter going 0 to 1) triggers no vendor
calls; a reconnect (counter already at least 1) with a non-empty subscription
map of valid modes issues exactly one vendor `subscribe` call per distinct
mode — the groups' modes are duplicate-free and exhaust the map's modes — and
the groups' token lists together cover exactly the map's key set at that
moment. -/
theorem c2_reconnect_resubscribes_by_mode (v : Vendor) (s : TrackerState) (resp : Nat) :
    (s.connectionCount = 0 →
      on_connect v s resp =
        Except.ok (connectedState s, [], s.connectCallbacks.map (fun cb => cb resp)))
    ∧ (1 ≤ s.connectionCount → s.subscribedInstruments ≠ [] →
      (∀ p ∈ s.subscribedInstruments, p.2 ∈ validModes) →
      on_connect v s resp =
        Except.ok ((connectStep v s).1, (connectStep v s).2,
          s.connectCallbacks.map (fun cb => cb resp))
      ∧ filterSubCalls (connectStep v s).2 =
          (groupByMode s.subscribedInstruments).map (fun g => VendorCall.subscribe g.2)
      ∧ (groupModes (groupByMode s.subscribedInstruments)).Nodup
      ∧ (∀ m, m ∈ groupModes (groupByMode s.subscribedInstruments) ↔
          ∃ t, (t, m) ∈ s.subscribedInstruments)
      ∧ (∀ t, (∃ g ∈ groupByMode s.subscribedInstruments, t ∈ g.2) ↔
          t ∈ dictKeys s.subscribedInstruments)) := by
  constructor
  · intro h0
    rw [on_connect_eq, connectStep_first v s h0]
  · intro h1 hne hval
    refine ⟨on_connect_eq v s resp, ?_, nodup_groupModes_groupByMode _,
      fun m => mem_groupModes_groupByMode _ m, fun t => groupByMode_union _ t⟩
    have hcond : s.subscribedInstruments ≠ [] ∧ s.connectionCount + 1 > 1 :=
      ⟨hne, by omega⟩
    show filterSubCalls (connectStep v s).2 = _
    unfold connectStep
    rw [if_pos hcond]
    rw [resubscribe_all_filterSub_valid v (connectedState s) hval]
    rfl

/-- The reconnect scenario state of the spec: counter 1 (one connect seen),
tokens 100 in `quote` mode and 200 in `full` mode. -/
def reconnectStateC2 : TrackerState :=
  { initialState with
      subscribedInstruments := [(100, modeQUOTE), (200, modeFULL)],
      connectionCount := 1 }

/-- Witness for C2 at the spec's scenario: the second connect event with map
100 to quote, 200 to full issues exactly two vendor subscribe calls, one per
mode group. -/
theorem c2_reconnect_resubscribes_by_mode_witness :
    1 ≤ reconnectStateC2.connectionCount
    ∧ filterSubCalls (connectStep alwaysOkVendor reconnectStateC2).2 =
        [VendorCall.subscribe [100], VendorCall.subscribe [200]] := by
  refine ⟨by decide, ?_⟩
  have h := ((c2_reconnect_resubscribes_by_mode alwaysOkVendor reconnectStateC2 0).2
    (by decide) (by decide) (by decide)).2.1
  rw [h]
  decide

/-- Claim C4: the dispatch loops invoke every registered observer of the
relevant category exactly once per event, in order, whatever any observer
raises; every handler catches observer exceptions and returns normally with
the recorded state; and the resubscription loop issues every (valid) mode
group's vendor subscribe call regardless of exceptions in other groups, and
returns normally itself. -/
theorem c4_observer_and_group_isolation :
    (∀ (α : Type) (cbs : List (α → Except TickerError Unit)) (x : α),
      runCallbacks cbs x = Except.ok (cbs.map (fun cb => cb x)))
    ∧ (∀ s now ticks, on_ticks s now ticks =
        Except.ok (recordBatch s now ticks, s.tickCallbacks.map (fun cb => cb ticks)))
    ∧ (∀ v s resp, on_connect v s resp =
        Except.ok ((connectStep v s).1, (connectStep v s).2,
          s.connectCallbacks.map (fun cb => cb resp)))
    ∧ (∀ s code reason, on_close s code reason =
        Except.ok ({ s with connectionStatus := "DISCONNECTED" },
          s.disconnectCallbacks.map (fun cb => cb (code, reason))))
    ∧ (∀ s code reason, on_error s code reason =
        Except.ok (s, s.errorCallbacks.map (fun cb => cb (code, reason))))
    ∧ (∀ s now data, on_order_update s now data =
        Except.ok ({ s with orderUpdates := s.orderUpdates ++ [⟨now, data⟩] },
          s.orderCallbacks.map (fun cb => cb data)))
    ∧ (∀ v s, filterSubCalls (resubscribe_all v s).2 =
        ((groupByMode s.subscribedInstruments).filter
          (fun g => decide (resolveMode (some g.1) ∈ validModes))).map
          (fun g => VendorCall.subscribe g.2)) :=
  ⟨fun _ cbs x => runCallbacks_eq cbs x, on_ticks_eq, on_connect_eq, on_close_eq,
    on_error_eq, on_order_update_eq, resubscribe_all_filterSub⟩

/-- Claim C6: `_on_ticks` appends each tick of the batch (with a timestamp)
to its own instrument's bounded history, overwrites that instrument's
latest-tick snapshot with the batch's last tick for it, updates the last-tick
timestamp, and only after the whole batch is recorded invokes each registered
tick observer exactly once with the whole batch. The spec's scenario
(subscribe [738561, 5633] full, deliver one tick for 738561) is instantiated
in the last two conjuncts. -/
theorem c6_on_ticks_records_then_notifies :
    (∀ s now ticks, on_ticks s now ticks =
      Except.ok (recordBatch s now ticks, s.tickCallbacks.map (fun cb => cb ticks)))
    ∧ (∀ s now ticks t,
        (recordBatch s now ticks).tickData t =
          (entriesFor t now ticks).foldl appendTick (s.tickData t)
        ∧ (recordBatch s now ticks).latestTicks t =
            (((ticks.filter (fun tk => tk.instrument_token = t)).map some).getLast?).getD
              (s.latestTicks t)
        ∧ (recordBatch s now ticks).lastTickTime = some now)
    ∧ get_latest_tick
        (recordBatch (subscribe alwaysOkVendor initialState [738561, 5633]
          (some modeFULL)).state 7 [Tick.mk 738561 2500]) 738561 =
        some (Tick.mk 738561 2500)
    ∧ (get_tick_history
        (recordBatch (subscribe alwaysOkVendor initialState [738561, 5633]
          (some modeFULL)).state 7 [Tick.mk 738561 2500]) 738561 none).length = 1 := by
  refine ⟨on_ticks_eq, ?_, by decide, by decide⟩
  intro s now ticks t
  exact ⟨recordBatch_tickData s now ticks t, recordBatch_latest s now ticks t,
    recordBatch_lastTickTime s now ticks⟩

/-- Counterexample to claim C9 as stated: with one recorded entry, a limit of
0 should return the most recent zero entries (an empty list), but Python's
`if count:` is false at 0, so `get_tick_history` falls through and returns
the full one-entry history. -/
theorem c9_counterexample :
    (get_tick_history (recordBatch initialState 1 [Tick.mk 5 10]) 5 (some 0)).length = 1 := by
  decide

/-- Claim C9 amended: with no limit — or with limit 0, which the code's
truthiness test conflates with "no limit" — the whole history is returned;
with a nonzero limit the result is a suffix of the stored history of length
min(limit, history length): the most recent `limit` entries, oldest first.
The accessor is a pure function of the state (no mutation), so repeated calls
with unchanged state agree. -/
theorem c9_tick_history_query (s : TrackerState) (t : Nat) (c : Nat) :
    get_tick_history s t none = s.tickData t
    ∧ get_tick_history s t (some 0) = s.tickData t
    ∧ (c ≠ 0 →
        get_tick_history s t (some c) = (s.tickData t).drop ((s.tickData t).length - c)
        ∧ (get_tick_history s t (some c)).length = min c (s.tickData t).length
        ∧ get_tick_history s t (some c) <:+ s.tickData t) := by
  refine ⟨rfl, rfl, ?_⟩
  intro hc
  have h1 : get_tick_history s t (some c) =
      (s.tickData t).drop ((s.tickData t).length - c) := by
    show (if c ≠ 0 then (s.tickData t).drop ((s.tickData t).length - c)
      else s.tickData t) = _
    rw [if_pos hc]
  refine ⟨h1, ?_, ?_⟩
  · rw [h1, List.length_drop]
    omega
  · rw [h1]
    exact List.drop_suffix _ _

/-- Witness for C9 (amended) at limit 2 on a one-entry history. -/
theorem c9_tick_history_query_witness :
    (2 : Nat) ≠ 0
    ∧ get_tick_history (recordBatch initialState 1 [Tick.mk 5 10]) 5 (some 2) =
      ((recordBatch initialState 1 [Tick.mk 5 10]).tickData 5).drop
        (((recordBatch initialState 1 [Tick.mk 5 10]).tickData 5).length - 2) :=
  ⟨by decide,
    ((c9_tick_history_query (recordBatch initialState 1 [Tick.mk 5 10]) 5 2).2.2
      (by decide)).1⟩

end KiteWrap
